import Mathlib

/-!
Verification development for the cliscale repository.

The definitions below are shallow embeddings of:
  - the runner entrypoint script, src/runner/entrypoint.sh (command
    validation, the download case statement on CODE_URL, the checksum
    block, and the EXIT_ON_JOB shutdown semantics);
  - the database schema created by the knex migrations under
    src/controller/src/migrations (tables sessions and token_jti with
    their primary-key and unique constraints);
  - the pool lifecycle and health-check helpers of
    src/controller/src/tests/setup.ts (checkDatabaseHealth,
    closeDatabasePool).

Shell and JavaScript strings are modelled as lists of characters;
network and filesystem effects are abstracted by boolean success
oracles passed as arguments.
-/

namespace Cliscale

/-- Strings of the embedded programs: lists of characters. -/
abbrev Str := List Char

/-- Some suffix of the string satisfies the test (used below for the
unanchored searches that bash globs and regexes perform). -/
def anySuffix (f : Str → Bool) : Str → Bool
  | [] => f []
  | c :: rest => f (c :: rest) || anySuffix f rest

/-- The pattern `p` occurs as a contiguous substring of `s`: the
semantics of a bash glob `*p*` and of `[[ s =~ p ]]` with a literal
pattern. -/
def hasSubstr (p s : Str) : Bool :=
  anySuffix (fun t => p.isPrefixOf t) s

/-- The glob `*github.com/*/tree/*` of the first arm of the
`case "$CODE_URL"` statement (src/runner/entrypoint.sh line 37): an
occurrence of `github.com/` is followed, somewhere to its right, by an
occurrence of `/tree/`. -/
def ghTreeGlob (s : Str) : Bool :=
  anySuffix
    (fun t => ("github.com/".toList).isPrefixOf t &&
      hasSubstr ("/tree/".toList) (t.drop 11)) s

/-- Continuation of the bash regex
`github.com/([^/]+)/([^/]+)/tree/([^/]+)/(.+)` (GITHUB_REGEX of
src/runner/entrypoint.sh line 42) after a matched `github.com/`:
owner, repo and ref are nonempty runs of characters other than `/`,
each followed by the required literal, and at least one path character
follows.  Each `[^/]+` group is followed by a literal `/`, so its
extent is forced: it ends at the first following slash. -/
def ghParseAfter (t : Str) : Bool :=
  let owner := t.takeWhile (fun c => !(c == '/'))
  let r1 := t.dropWhile (fun c => !(c == '/'))
  if owner.isEmpty then false
  else
    match r1 with
    | '/' :: r2 =>
      let repo := r2.takeWhile (fun c => !(c == '/'))
      let r3 := r2.dropWhile (fun c => !(c == '/'))
      if repo.isEmpty then false
      else if ("/tree/".toList).isPrefixOf r3 then
        let r4 := r3.drop 6
        let ref := r4.takeWhile (fun c => !(c == '/'))
        let r5 := r4.dropWhile (fun c => !(c == '/'))
        if ref.isEmpty then false
        else
          match r5 with
          | '/' :: rest => !rest.isEmpty
          | _ => false
      else false
    | _ => false

/-- The unanchored test `[[ "$CODE_URL" =~ $GITHUB_REGEX ]]`
(src/runner/entrypoint.sh line 43): the regex matches starting at some
occurrence of `github.com/`. -/
def ghRegexMatch (s : Str) : Bool :=
  anySuffix
    (fun t => ("github.com/".toList).isPrefixOf t && ghParseAfter (t.drop 11)) s

/-- The arms of the `case "$CODE_URL"` statement
(src/runner/entrypoint.sh lines 36 to 92), in source order. -/
inductive CodeUrlBranch where
  | githubTree
  | zip
  | tgz
  | git
  | fallback
  deriving DecidableEq

/-- First matching arm of the `case` statement: `*github.com/*/tree/*`,
then `*.zip`, then `*.tgz|*.tar.gz`, then `*.git|*.git*`, and the
default `*` arm otherwise. -/
def selectBranch (s : Str) : CodeUrlBranch :=
  if ghTreeGlob s then .githubTree
  else if (".zip".toList).isSuffixOf s then .zip
  else if (".tgz".toList).isSuffixOf s || (".tar.gz".toList).isSuffixOf s then .tgz
  else if (".git".toList).isSuffixOf s || hasSubstr (".git".toList) s then .git
  else .fallback

/-- Observable outcome of the download `case` block: the arm that ran,
whether a download (curl or git clone) was attempted, which bundle file
exists afterwards, the value of CODE_CHECKSUM_SHA256 on leaving the
block (`none` means unset), and whether the script exited inside the
block. -/
structure CaseResult where
  branch : CodeUrlBranch
  downloadAttempted : Bool
  bundleZip : Bool
  bundleTgz : Bool
  checksum : Option Str
  exited : Bool
  deriving DecidableEq

/-- The download `case` block of src/runner/entrypoint.sh (lines 36 to
92).  `c0` is the incoming CODE_CHECKSUM_SHA256; `dlOk`, `foundFolder`
and `mvOk` abstract success of the network fetch, of the `find` for the
requested folder, and of the `mv` into /work/src.  The GitHub arm exits
3 when the URL does not parse or a step fails, and on success clears
CODE_CHECKSUM_SHA256 to the empty string; the zip, tgz and git arms
fetch the URL (failure aborts the script via `set -e`); the default `*`
arm warns and downloads the URL as bundle.zip. -/
def runCase (url : Str) (c0 : Option Str) (dlOk foundFolder mvOk : Bool) :
    CaseResult :=
  match selectBranch url with
  | .githubTree =>
    if ghRegexMatch url then
      if dlOk then
        if foundFolder then
          if mvOk then ⟨.githubTree, true, false, false, some [], false⟩
          else ⟨.githubTree, true, false, false, c0, true⟩
        else ⟨.githubTree, true, false, false, c0, true⟩
      else ⟨.githubTree, true, false, false, c0, true⟩
    else ⟨.githubTree, false, false, false, c0, true⟩
  | .zip =>
    if dlOk then ⟨.zip, true, true, false, c0, false⟩
    else ⟨.zip, true, false, false, c0, true⟩
  | .tgz =>
    if dlOk then ⟨.tgz, true, false, true, c0, false⟩
    else ⟨.tgz, true, false, false, c0, true⟩
  | .git =>
    if dlOk then ⟨.git, true, false, false, c0, false⟩
    else ⟨.git, true, false, false, c0, true⟩
  | .fallback =>
    if dlOk then ⟨.fallback, true, true, false, c0, false⟩
    else ⟨.fallback, true, false, false, c0, true⟩

/-- The checksum block of src/runner/entrypoint.sh (lines 94 to 100):
`sha256sum -c` runs iff the script is still alive after the case block,
CODE_CHECKSUM_SHA256 is set and nonempty, and one of bundle.zip or
bundle.tgz exists. -/
def shaCheckApplied (r : CaseResult) : Bool :=
  !r.exited &&
    (match r.checksum with
     | some v => !v.isEmpty
     | none => false) &&
    (r.bundleZip || r.bundleTgz)

/-- Presence of one of the three dangerous substitution patterns that
`validate_command` of src/runner/entrypoint.sh (lines 11 to 14)
searches for: a dollar-parenthesis, a backtick, or a dollar-brace. -/
def dangerousSub (cmd : Str) : Bool :=
  hasSubstr ("$(".toList) cmd || hasSubstr ("`".toList) cmd ||
    hasSubstr ("$\x7b".toList) cmd

/-- Outcome of `validate_command`: accepted, rejected for a dangerous
substitution pattern, or rejected for exceeding the length bound. -/
inductive ValidateResult where
  | ok
  | dangerousPattern
  | tooLong
  deriving DecidableEq

/-- The function `validate_command` of src/runner/entrypoint.sh (lines
8 to 21): the dangerous-pattern test runs first, then the 500-character
length bound (`-gt 500` rejects strictly longer inputs only). -/
def validate_command (cmd : Str) : ValidateResult :=
  if dangerousSub cmd then .dangerousPattern
  else if cmd.length > 500 then .tooLong
  else .ok

/-- The bash test `[ -n "..." ]` on an optional environment variable:
present and nonempty. -/
def envPresent (v : Option Str) : Bool :=
  match v with
  | some s => !s.isEmpty
  | none => false

/-- The start of src/runner/entrypoint.sh up to and including the
download case block, in source order: the CODE_URL presence check (exit
2), the `validate_command` checks on COMMAND and INSTALL_CMD when
present (exit 1), then the case block.  `Except.error e` means the
script exited with code `e` before any download, install or command
step ran. -/
def runnerStart (codeUrl : Str) (command installCmd c0 : Option Str)
    (dlOk foundFolder mvOk : Bool) : Except Nat CaseResult :=
  if codeUrl.isEmpty then .error 2
  else if envPresent command && !(validate_command (command.getD []) == .ok) then
    .error 1
  else if envPresent installCmd && !(validate_command (installCmd.getD []) == .ok) then
    .error 1
  else .ok (runCase codeUrl c0 dlOk foundFolder mvOk)

/-- The shutdown tail of src/runner/entrypoint.sh (lines 183 to 209),
run under `set -euo pipefail` (line 2).  When EXIT_ON_JOB equals the
string `false`, the script runs the bare, unguarded `wait "$ttyd_pid"`
of line 186: `ttydWait` is the status that wait returns (a bash status,
0 to 255; 128 plus the signal number when the trapped signal interrupts
the wait).  Only when that status is 0 does control reach `exit 0`;
a nonzero status aborts the script via `set -e` with that status.
Otherwise the script exits with the code read from the exit file
(`none` means the file is absent, in which case `job_code` defaults
to 0; `exit` in bash reduces its argument mod 256); in this branch the
kill and wait on ttyd (lines 205 to 206) are `|| true`-guarded, so the
ttyd status cannot abort it. -/
def runnerExit (exitOnJob : Str) (ttydWait : Nat) (exitFile : Option Nat) : Nat :=
  if exitOnJob = ("false".toList) then
    if ttydWait = 0 then 0 else ttydWait
  else
    match exitFile with
    | none => 0
    | some c => c % 256

/-- Error of a Store write that violates a declared constraint. -/
inductive DbError where
  | uniqueViolation
  deriving DecidableEq

/-- A row of the `sessions` table as created by migration
20250126000001_create_sessions_table.ts: `session_id` is the primary
key, `owner_user_id` and `job_name` are non-null, `job_name` carries a
unique constraint, the pod columns are nullable, and the two
timestamps are `created_at` (defaulted) and `expires_at` (non-null).
The migration declares no constraint relating the two timestamps. -/
structure SessionRow where
  session_id : Str
  owner_user_id : Str
  job_name : Str
  pod_name : Option Str
  pod_ip : Option Str
  created_at : Int
  expires_at : Int
  deriving DecidableEq

/-- The constraint-conflict test for an insert into `sessions`: some
existing row already has the new row's `session_id` (primary key) or
`job_name` (unique constraint). -/
def sessionInsertConflict (tbl : List SessionRow) (r : SessionRow) : Bool :=
  tbl.any (fun q => q.session_id == r.session_id || q.job_name == r.job_name)

/-- Modelled from the spec: `putSession(row)` — "inserts; fails on
duplicate primary key".  The store layer itself is not among the
repository's staged files (only the migrations and test doubles are);
the constraints enforced here are exactly those migration
20250126000001 declares, with SQL insert semantics: a conflicting
insert fails and the table is left unchanged. -/
def putSession (tbl : List SessionRow) (r : SessionRow) :
    Except DbError (List SessionRow) :=
  if sessionInsertConflict tbl r then .error .uniqueViolation
  else .ok (tbl ++ [r])

/-- A row of the `token_jti` table as created by migration
20250126000002_create_token_jti_table.ts: `jti` is the primary key,
`session_id` and `expires_at` are non-null. -/
structure JtiRow where
  jti : Str
  session_id : Str
  expires_at : Int
  deriving DecidableEq

/-- The primary-key conflict test for an insert into `token_jti`: some
existing row already has the new row's `jti`. -/
def jtiInsertConflict (tbl : List JtiRow) (r : JtiRow) : Bool :=
  tbl.any (fun q => q.jti == r.jti)

/-- Modelled from the spec: `putJti(row)` — "inserts; fails on
duplicate".  As for `putSession`, the store layer is not among the
staged files; the enforced constraint is the primary key migration
20250126000002 declares on `jti`, with SQL insert semantics. -/
def putJti (tbl : List JtiRow) (r : JtiRow) : Except DbError (List JtiRow) :=
  if jtiInsertConflict tbl r then .error .uniqueViolation
  else .ok (tbl ++ [r])

/-- Distinct rows of `sessions` have distinct primary keys and distinct
job names. -/
def sessionsUnique (tbl : List SessionRow) : Prop :=
  tbl.Pairwise (fun a b => a.session_id ≠ b.session_id ∧ a.job_name ≠ b.job_name)

/-- Distinct rows of `token_jti` have distinct `jti` values. -/
def jtiUnique (tbl : List JtiRow) : Prop :=
  tbl.Pairwise (fun a b => a.jti ≠ b.jti)

/-- The module-level shutdown state of src/controller/src/tests/setup.ts:
the `isPoolClosed` reentrancy flag, together with a count of
`db.destroy()` invocations so that "destroy is called at most once" can
be stated. -/
structure PoolState where
  isPoolClosed : Bool
  destroyCalls : Nat
  deriving DecidableEq

/-- The function `closeDatabasePool` of setup.ts (lines 234 to 257 of
the staged file): it returns immediately when `isPoolClosed` is already
set; otherwise it sets the flag and then calls `db.destroy()` once. -/
def closeDatabasePool (st : PoolState) : PoolState :=
  if st.isPoolClosed then st
  else ⟨true, st.destroyCalls + 1⟩

/-- Process start: pool open, destroy never called. -/
def initialPoolState : PoolState := ⟨false, 0⟩

/-- State after `n` successive calls to `closeDatabasePool` (from any
combination of shutdown paths and signal handlers; the event loop runs
them sequentially) starting at process start. -/
def afterCloseCalls : Nat → PoolState
  | 0 => initialPoolState
  | n + 1 => closeDatabasePool (afterCloseCalls n)

/-- The function `checkDatabaseHealth` of setup.ts (lines 194 to 232 of
the staged file).  `selectOne` is the outcome of `db.raw('SELECT 1')`:
`Except.ok n` a resolved query whose `rows` array has length `n`,
`Except.error ()` a rejected one.  The function first consults the
module flag `isPoolHealthy`; only when it is set does it run the query
and compare the row count to 1. -/
def checkDatabaseHealth (isPoolHealthy : Bool) (selectOne : Except Unit Nat) :
    Bool :=
  if !isPoolHealthy then false
  else
    match selectOne with
    | .ok n => n == 1
    | .error _ => false

/-- A session row whose expiry does not exceed its creation time. -/
def badSessionRow : SessionRow :=
  ⟨("s1".toList), ("u1".toList), ("j1".toList), none, none, 10, 10⟩

/-- C6 counterexample: `checkDatabaseHealth` is not determined by the
outcome of the `SELECT 1` query alone — with the module flag
`isPoolHealthy` cleared it returns false even though the very same
successful one-row query outcome yields true when the flag is set, so a
condition other than the query affects the result. -/
theorem checkDatabaseHealth_pool_flag_counterexample :
    checkDatabaseHealth false (Except.ok 1) = false ∧
      checkDatabaseHealth true (Except.ok 1) = true := by
  constructor <;> rfl

/-- C6 amended: `checkDatabaseHealth` returns true iff the module flag
`isPoolHealthy` is set AND the `SELECT 1` round-trip succeeds with
exactly one row; it returns false when the query fails, errors, or the
pool has been flagged unhealthy. -/
theorem checkDatabaseHealth_characterization :
    ∀ (healthy : Bool) (q : Except Unit Nat),
      checkDatabaseHealth healthy q = true ↔
        healthy = true ∧ q = Except.ok 1 := by
  intro healthy q
  cases healthy <;> rcases q with _ | n <;>
    simp [checkDatabaseHealth]

/-- C7: closing the Store pool is reentrancy-guarded: across any number
of successive `closeDatabasePool` calls, `db.destroy` runs at most
once; after the first call the state is fixed at (closed, one destroy)
and further calls return without touching the pool. -/
theorem closeDatabasePool_reentrancy_guard :
    (∀ n : Nat, (afterCloseCalls n).destroyCalls ≤ 1) ∧
      (∀ n : Nat, afterCloseCalls (n + 1) = ⟨true, 1⟩) ∧
      (∀ st : PoolState, st.isPoolClosed = true → closeDatabasePool st = st) := by
  have hfix : ∀ n : Nat, afterCloseCalls (n + 1) = ⟨true, 1⟩ := by
    intro n
    induction n with
    | zero => rfl
    | succ k ih =>
      show closeDatabasePool (afterCloseCalls (k + 1)) = _
      rw [ih]
      rfl
  refine ⟨?_, hfix, ?_⟩
  · intro n
    match n with
    | 0 => exact Nat.zero_le 1
    | k + 1 => rw [hfix k]
  · intro st hcl
    unfold closeDatabasePool
    rw [if_pos hcl]

/-- C7 witness: a concrete double close starting at process start
destroys the pool exactly once, and a third call is a no-op. -/
theorem closeDatabasePool_reentrancy_guard_witness :
    (afterCloseCalls 2).destroyCalls ≤ 1 ∧
      afterCloseCalls 2 = ⟨true, 1⟩ ∧
      closeDatabasePool ⟨true, 1⟩ = ⟨true, 1⟩ :=
  ⟨closeDatabasePool_reentrancy_guard.1 2,
    closeDatabasePool_reentrancy_guard.2.1 1,
    closeDatabasePool_reentrancy_guard.2.2 ⟨true, 1⟩ rfl⟩

/-- C8 counterexample: the sessions schema does not force
`expires_at > created_at` — the row `badSessionRow`, whose two
timestamps are equal, satisfies every declared constraint and is
accepted by an insert into the empty table. -/
theorem sessions_expiry_unconstrained_counterexample :
    putSession [] badSessionRow = Except.ok [badSessionRow] ∧
      ¬(badSessionRow.created_at < badSessionRow.expires_at) :=
  ⟨rfl, by decide⟩

/-- C8 amended: the schema of migration 20250126000001 leaves the
timestamps unconstrained: whether `putSession` accepts a row depends
only on the `session_id` primary key and the `job_name` unique
constraint, never on `created_at` or `expires_at`, so rows with
`expires_at ≤ created_at` can exist; the ordering invariant is only as
strong as the write paths that compute the timestamps. -/
theorem sessions_schema_ignores_timestamps :
    ∀ (tbl : List SessionRow) (sid own jn : Str) (pn pip : Option Str)
      (c e c2 e2 : Int),
      (putSession tbl ⟨sid, own, jn, pn, pip, c, e⟩ =
          Except.error DbError.uniqueViolation ↔
        putSession tbl ⟨sid, own, jn, pn, pip, c2, e2⟩ =
          Except.error DbError.uniqueViolation) := by
  intro tbl sid own jn pn pip c e c2 e2
  have h : sessionInsertConflict tbl ⟨sid, own, jn, pn, pip, c, e⟩ =
      sessionInsertConflict tbl ⟨sid, own, jn, pn, pip, c2, e2⟩ := rfl
  unfold putSession
  rw [h]
  cases hc : sessionInsertConflict tbl ⟨sid, own, jn, pn, pip, c2, e2⟩ <;> simp

/-- C10 counterexample: with EXIT_ON_JOB set to `false`, the container
does NOT exit 0 regardless — when the unguarded `wait "$ttyd_pid"` of
line 186 returns 143 (128 plus SIGTERM, ttyd torn down by the trapped
signal), `set -e` aborts the script with status 143 before `exit 0`,
even though the command's recorded exit code is 0. -/
theorem runnerExit_ttyd_failure_counterexample :
    runnerExit ("false".toList) 143 (some 0) = 143 ∧
      runnerExit ("false".toList) 143 (some 0) ≠ 0 := by
  constructor
  · rfl
  · intro h
    cases h

/-- C10 amended: when EXIT_ON_JOB is any string other than `false`
(its default is `true`), the container exits with the code recorded by
the finished command — the file's value when present, 0 when the exit
file is absent.  When EXIT_ON_JOB equals `false`, the recorded command
outcome is ignored, and the script exits 0 only if the wait on ttyd
returns 0; a nonzero wait status (a ttyd crash, or 128 plus the signal
number when the trapped signal interrupts the wait) aborts the script
under `set -e` with that status before `exit 0` is reached. -/
theorem runnerExit_exit_on_job_semantics :
    ∀ (exitOnJob : Str) (ttydWait : Nat) (exitFile : Option Nat),
      (exitOnJob = ("false".toList) →
        runnerExit exitOnJob 0 exitFile = 0 ∧
          (ttydWait ≠ 0 → runnerExit exitOnJob ttydWait exitFile = ttydWait) ∧
          runnerExit exitOnJob ttydWait exitFile =
            runnerExit exitOnJob ttydWait none) ∧
        (exitOnJob ≠ ("false".toList) →
          runnerExit exitOnJob ttydWait none = 0 ∧
            ∀ c : Nat, c < 256 → runnerExit exitOnJob ttydWait (some c) = c) := by
  intro exitOnJob ttydWait exitFile
  constructor
  · intro h
    refine ⟨?_, ?_, ?_⟩
    · unfold runnerExit
      rw [if_pos h]
      rfl
    · intro ht
      unfold runnerExit
      rw [if_pos h]
      rw [if_neg ht]
    · unfold runnerExit
      rw [if_pos h, if_pos h]
  · intro h
    constructor
    · unfold runnerExit
      rw [if_neg h]
    · intro c hc
      unfold runnerExit
      rw [if_neg h]
      exact Nat.mod_eq_of_lt hc

/-- C10 amended witness: with EXIT_ON_JOB at `false` a clean ttyd wait
yields exit 0 while wait status 143 propagates and the recorded code 7
is ignored; with EXIT_ON_JOB at its default `true` the recorded code 7
propagates and an absent file yields 0. -/
theorem runnerExit_exit_on_job_semantics_witness :
    runnerExit ("false".toList) 0 (some 7) = 0 ∧
      runnerExit ("false".toList) 143 (some 7) = 143 ∧
      runnerExit ("false".toList) 143 (some 7) = runnerExit ("false".toList) 143 none ∧
      runnerExit ("true".toList) 0 none = 0 ∧
      runnerExit ("true".toList) 0 (some 7) = 7 :=
  ⟨((runnerExit_exit_on_job_semantics ("false".toList) 0 (some 7)).1 rfl).1,
    ((runnerExit_exit_on_job_semantics ("false".toList) 143 (some 7)).1 rfl).2.1
      (by decide),
    ((runnerExit_exit_on_job_semantics ("false".toList) 143 (some 7)).1 rfl).2.2,
    ((runnerExit_exit_on_job_semantics ("true".toList) 0 none).2 (by decide)).1,
    ((runnerExit_exit_on_job_semantics ("true".toList) 0 (some 7)).2 (by decide)).2 7
      (by decide)⟩

/-- C1: `jti` is the primary key of `token_jti`: inserting a row whose
`jti` equals that of an existing row fails with a unique violation
rather than overwriting, and any insert that succeeds preserves
pairwise-distinct `jti` values across the table. -/
theorem putJti_primary_key_unique :
    ∀ (tbl : List JtiRow) (r : JtiRow),
      (∀ dup : JtiRow, dup ∈ tbl → dup.jti = r.jti →
        putJti tbl r = Except.error DbError.uniqueViolation) ∧
        (∀ tbl' : List JtiRow, jtiUnique tbl → putJti tbl r = Except.ok tbl' →
          jtiUnique tbl') := by
  intro tbl r
  constructor
  · intro dup hmem heq
    have hc : jtiInsertConflict tbl r = true := by
      unfold jtiInsertConflict
      rw [List.any_eq_true]
      exact ⟨dup, hmem, by simp [heq]⟩
    unfold putJti
    rw [if_pos hc]
  · intro tbl' hu hok
    unfold putJti at hok
    by_cases hc : jtiInsertConflict tbl r = true
    · rw [if_pos hc] at hok
      cases hok
    · rw [if_neg hc] at hok
      injection hok with hok'
      subst hok'
      have hfresh : ∀ q ∈ tbl, q.jti ≠ r.jti := by
        intro q hq heq
        apply hc
        unfold jtiInsertConflict
        rw [List.any_eq_true]
        exact ⟨q, hq, by simp [heq]⟩
      unfold jtiUnique
      rw [List.pairwise_append]
      refine ⟨hu, List.pairwise_singleton _ _, ?_⟩
      intro a ha b hb
      rw [List.mem_singleton] at hb
      subst hb
      exact hfresh a ha

/-- C1 witness: a duplicate `jti` insert on a concrete one-row table
fails, and a successful insert of a fresh `jti` yields a table with
distinct `jti` values. -/
theorem putJti_primary_key_unique_witness :
    putJti [⟨("a".toList), ("s1".toList), 5⟩] ⟨("a".toList), ("s2".toList), 9⟩ =
        Except.error DbError.uniqueViolation ∧
      jtiUnique [⟨("a".toList), ("s1".toList), 5⟩, ⟨("b".toList), ("s2".toList), 9⟩] := by
  constructor
  · exact (putJti_primary_key_unique [⟨("a".toList), ("s1".toList), 5⟩]
      ⟨("a".toList), ("s2".toList), 9⟩).1 ⟨("a".toList), ("s1".toList), 5⟩
      (by simp) rfl
  · exact (putJti_primary_key_unique [⟨("a".toList), ("s1".toList), 5⟩]
      ⟨("b".toList), ("s2".toList), 9⟩).2
      [⟨("a".toList), ("s1".toList), 5⟩, ⟨("b".toList), ("s2".toList), 9⟩]
      (List.pairwise_singleton _ _) rfl

/-- C2: the sessions schema enforces both identifier constraints:
inserting a row that duplicates an existing `session_id` (primary key)
or an existing `job_name` (unique constraint) fails with a unique
violation, and any insert that succeeds preserves pairwise-distinct
`session_id` and `job_name` values across the table. -/
theorem putSession_keys_unique :
    ∀ (tbl : List SessionRow) (r : SessionRow),
      (∀ dup : SessionRow, dup ∈ tbl →
        dup.session_id = r.session_id ∨ dup.job_name = r.job_name →
        putSession tbl r = Except.error DbError.uniqueViolation) ∧
        (∀ tbl' : List SessionRow, sessionsUnique tbl →
          putSession tbl r = Except.ok tbl' → sessionsUnique tbl') := by
  intro tbl r
  constructor
  · intro dup hmem hdup
    have hc : sessionInsertConflict tbl r = true := by
      unfold sessionInsertConflict
      rw [List.any_eq_true]
      refine ⟨dup, hmem, ?_⟩
      rcases hdup with h | h <;> simp [h]
    unfold putSession
    rw [if_pos hc]
  · intro tbl' hu hok
    unfold putSession at hok
    by_cases hc : sessionInsertConflict tbl r = true
    · rw [if_pos hc] at hok
      cases hok
    · rw [if_neg hc] at hok
      injection hok with hok'
      subst hok'
      have hfresh : ∀ q ∈ tbl, q.session_id ≠ r.session_id ∧ q.job_name ≠ r.job_name := by
        intro q hq
        constructor
        · intro heq
          apply hc
          unfold sessionInsertConflict
          rw [List.any_eq_true]
          exact ⟨q, hq, by simp [heq]⟩
        · intro heq
          apply hc
          unfold sessionInsertConflict
          rw [List.any_eq_true]
          exact ⟨q, hq, by simp [heq]⟩
      unfold sessionsUnique
      rw [List.pairwise_append]
      refine ⟨hu, List.pairwise_singleton _ _, ?_⟩
      intro a ha b hb
      rw [List.mem_singleton] at hb
      subst hb
      exact hfresh a ha

/-- C2 witness: on a concrete one-row table, reusing the `session_id`
fails, reusing the `job_name` fails, and a fresh insert yields a table
with pairwise-distinct identifiers. -/
theorem putSession_keys_unique_witness :
    putSession [⟨("s1".toList), ("u".toList), ("j1".toList), none, none, 0, 9⟩]
        ⟨("s1".toList), ("u".toList), ("j2".toList), none, none, 0, 9⟩ =
        Except.error DbError.uniqueViolation ∧
      putSession [⟨("s1".toList), ("u".toList), ("j1".toList), none, none, 0, 9⟩]
        ⟨("s2".toList), ("u".toList), ("j1".toList), none, none, 0, 9⟩ =
        Except.error DbError.uniqueViolation ∧
      sessionsUnique [⟨("s1".toList), ("u".toList), ("j1".toList), none, none, 0, 9⟩,
        ⟨("s2".toList), ("u".toList), ("j2".toList), none, none, 0, 9⟩] := by
  refine ⟨?_, ?_, ?_⟩
  · exact (putSession_keys_unique _ _).1
      ⟨("s1".toList), ("u".toList), ("j1".toList), none, none, 0, 9⟩
      (by simp) (Or.inl rfl)
  · exact (putSession_keys_unique _ _).1
      ⟨("s1".toList), ("u".toList), ("j1".toList), none, none, 0, 9⟩
      (by simp) (Or.inr rfl)
  · exact (putSession_keys_unique
      [⟨("s1".toList), ("u".toList), ("j1".toList), none, none, 0, 9⟩]
      ⟨("s2".toList), ("u".toList), ("j2".toList), none, none, 0, 9⟩).2
      [⟨("s1".toList), ("u".toList), ("j1".toList), none, none, 0, 9⟩,
        ⟨("s2".toList), ("u".toList), ("j2".toList), none, none, 0, 9⟩]
      (List.pairwise_singleton _ _) rfl

/-- Helper: a pattern occurring as a suffix occurs as a substring. -/
theorem hasSubstr_append (p pre : Str) : hasSubstr p (pre ++ p) = true := by
  induction pre with
  | nil =>
    unfold hasSubstr
    cases p with
    | nil => rfl
    | cons c cs =>
      show ((c :: cs).isPrefixOf (c :: cs) || _) = true
      rw [Bool.or_eq_true]
      exact Or.inl ((List.isPrefixOf_iff_prefix).mpr (List.prefix_refl _))
  | cons c cs ih =>
    unfold hasSubstr at ih ⊢
    show (p.isPrefixOf (c :: (cs ++ p)) ||
      anySuffix (fun t => p.isPrefixOf t) (cs ++ p)) = true
    rw [Bool.or_eq_true]
    exact Or.inr ih

/-- C3 counterexample: the URL `http://evil.example/\x60payload\x60`
(backticks around `payload`) matches none of the four accepted shapes —
not the GitHub tree glob, not a `.zip`, `.tgz`/`.tar.gz` or `.git`
URL — and it contains a backtick, yet the case statement takes the
default arm, attempts a zip download of it, and the script does not
exit: no validation error occurs. -/
theorem code_url_unrecognised_counterexample :
    ghTreeGlob ("http://evil.example/`payload`".toList) = false ∧
      (".zip".toList).isSuffixOf ("http://evil.example/`payload`".toList) = false ∧
      (".tgz".toList).isSuffixOf ("http://evil.example/`payload`".toList) = false ∧
      (".tar.gz".toList).isSuffixOf ("http://evil.example/`payload`".toList) = false ∧
      hasSubstr (".git".toList) ("http://evil.example/`payload`".toList) = false ∧
      hasSubstr ("`".toList) ("http://evil.example/`payload`".toList) = true ∧
      selectBranch ("http://evil.example/`payload`".toList) = CodeUrlBranch.fallback ∧
      (runCase ("http://evil.example/`payload`".toList) none true true true).downloadAttempted = true ∧
      (runCase ("http://evil.example/`payload`".toList) none true true true).exited = false := by
  decide

/-- C3 amended: a code_url matching none of the case statement's
patterns is NOT rejected by the runner: the default `*` arm runs,
logs only a warning, and attempts to download the URL as a zip bundle;
the runner applies no content validation (backticks included) to
CODE_URL, so rejection of malformed code_url values is not performed
by this script. -/
theorem code_url_fallback_downloads :
    ∀ (url : Str) (c0 : Option Str) (dlOk foundFolder mvOk : Bool),
      ghTreeGlob url = false →
      (".zip".toList).isSuffixOf url = false →
      (".tgz".toList).isSuffixOf url = false →
      (".tar.gz".toList).isSuffixOf url = false →
      hasSubstr (".git".toList) url = false →
      selectBranch url = CodeUrlBranch.fallback ∧
        (runCase url c0 dlOk foundFolder mvOk).downloadAttempted = true := by
  intro url c0 dlOk foundFolder mvOk h1 h2 h3 h4 h5
  have h6 : (".git".toList).isSuffixOf url = false := by
    cases hs : (".git".toList).isSuffixOf url
    · rfl
    · exfalso
      have hsub : (".git".toList) <:+ url := (List.isSuffixOf_iff_suffix).mp hs
      rcases hsub with ⟨pre, hpre⟩
      subst hpre
      rw [hasSubstr_append] at h5
      cases h5
  have hb : selectBranch url = CodeUrlBranch.fallback := by
    unfold selectBranch
    rw [h1, h2, h3, h4, h5, h6]
    rfl
  refine ⟨hb, ?_⟩
  unfold runCase
  rw [hb]
  cases dlOk <;> rfl

/-- C3 amended witness: a concrete unrecognised URL reaches the default
arm and is downloaded as a zip bundle. -/
theorem code_url_fallback_downloads_witness :
    selectBranch ("http://host/payload".toList) = CodeUrlBranch.fallback ∧
      (runCase ("http://host/payload".toList) none true true true).downloadAttempted = true :=
  code_url_fallback_downloads ("http://host/payload".toList) none true true true
    (by decide) (by decide) (by decide) (by decide) (by decide)

/-- C4: when COMMAND or INSTALL_CMD is present (nonempty) and contains
one of the substrings dollar-parenthesis, backtick or dollar-brace, the
runner exits with code 1 before the download case block (and hence
before any install or command step); and a value free of all three
substrings is never rejected by the dangerous-pattern check. -/
theorem validate_command_blocks_substitution :
    (∀ (codeUrl : Str) (command installCmd c0 : Option Str) (dlOk f m : Bool),
      codeUrl.isEmpty = false →
      ((envPresent command && dangerousSub (command.getD [])) ||
        (envPresent installCmd && dangerousSub (installCmd.getD []))) = true →
      runnerStart codeUrl command installCmd c0 dlOk f m = Except.error 1) ∧
      (∀ cmd : Str, dangerousSub cmd = false →
        validate_command cmd ≠ ValidateResult.dangerousPattern) := by
  constructor
  · intro codeUrl command installCmd c0 dlOk f m hurl hdang
    unfold runnerStart
    rw [if_neg (by rw [hurl]; exact Bool.false_ne_true)]
    rcases Bool.or_eq_true _ _ ▸ hdang with hcmd | hins
    · rcases Bool.and_eq_true _ _ ▸ hcmd with ⟨hp, hd⟩
      have hval : validate_command (command.getD []) = ValidateResult.dangerousPattern := by
        unfold validate_command
        rw [if_pos hd]
      rw [if_pos (by rw [hp, hval]; rfl)]
    · rcases Bool.and_eq_true _ _ ▸ hins with ⟨hp, hd⟩
      have hval : validate_command (installCmd.getD []) = ValidateResult.dangerousPattern := by
        unfold validate_command
        rw [if_pos hd]
      by_cases hfirst :
          (envPresent command && !(validate_command (command.getD []) == ValidateResult.ok)) = true
      · rw [if_pos hfirst]
      · rw [if_neg hfirst]
        rw [if_pos (by rw [hp, hval]; rfl)]
  · intro cmd hfree
    unfold validate_command
    rw [if_neg (by rw [hfree]; exact Bool.false_ne_true)]
    by_cases hlen : cmd.length > 500
    · rw [if_pos hlen]
      intro h
      cases h
    · rw [if_neg hlen]
      intro h
      cases h

/-- C4 witness: a COMMAND containing a command substitution is rejected
with exit 1 before the case block, and `npm install` passes the
dangerous-pattern check. -/
theorem validate_command_blocks_substitution_witness :
    runnerStart ("http://h/a.zip".toList) (some ("echo $(id)".toList)) none none
        true true true = Except.error 1 ∧
      validate_command ("npm install".toList) ≠ ValidateResult.dangerousPattern := by
  constructor
  · exact validate_command_blocks_substitution.1 ("http://h/a.zip".toList)
      (some ("echo $(id)".toList)) none none true true true (by decide) (by decide)
  · exact validate_command_blocks_substitution.2 ("npm install".toList) (by decide)

/-- C5: the length bound of `validate_command` is inclusive at 500: a
command free of the dangerous substrings whose length is exactly 500 is
accepted, every command of length 501 or more is rejected, and a
present COMMAND of length 501 or more makes the runner exit 1 before
the download case block. -/
theorem validate_command_length_boundary :
    (∀ cmd : Str, dangerousSub cmd = false → cmd.length = 500 →
      validate_command cmd = ValidateResult.ok) ∧
      (∀ cmd : Str, 501 ≤ cmd.length →
        validate_command cmd ≠ ValidateResult.ok) ∧
      (∀ (codeUrl : Str) (cmd : Str) (installCmd c0 : Option Str) (dlOk f m : Bool),
        codeUrl.isEmpty = false → 501 ≤ cmd.length →
        runnerStart codeUrl (some cmd) installCmd c0 dlOk f m = Except.error 1) := by
  have hrej : ∀ cmd : Str, 501 ≤ cmd.length →
      validate_command cmd ≠ ValidateResult.ok := by
    intro cmd hlen
    unfold validate_command
    by_cases hd : dangerousSub cmd = true
    · rw [if_pos hd]
      intro h
      cases h
    · rw [if_neg hd]
      rw [if_pos (by omega)]
      intro h
      cases h
  refine ⟨?_, hrej, ?_⟩
  · intro cmd hfree hlen
    unfold validate_command
    rw [if_neg (by rw [hfree]; exact Bool.false_ne_true)]
    rw [if_neg (by omega)]
  · intro codeUrl cmd installCmd c0 dlOk f m hurl hlen
    unfold runnerStart
    rw [if_neg (by rw [hurl]; exact Bool.false_ne_true)]
    have hpres : envPresent (some cmd) = true := by
      unfold envPresent
      cases cmd with
      | nil => simp at hlen
      | cons c cs => rfl
    have hne : (validate_command ((some cmd : Option Str).getD []) ==
        ValidateResult.ok) = false := by
      have hnok := hrej cmd hlen
      have hgd : ((some cmd : Option Str).getD []) = cmd := rfl
      rw [hgd]
      cases hv : validate_command cmd
      · exact absurd hv hnok
      · rfl
      · rfl
    rw [if_pos (by rw [hpres, hne]; rfl)]

set_option maxRecDepth 4000 in
/-- C5 witness: 500 repeated characters are accepted, 501 are rejected,
and a 501-character COMMAND aborts the runner with exit 1 before any
download. -/
theorem validate_command_length_boundary_witness :
    validate_command (List.replicate 500 'a') = ValidateResult.ok ∧
      validate_command (List.replicate 501 'a') ≠ ValidateResult.ok ∧
      runnerStart ("http://h/a.zip".toList) (some (List.replicate 501 'a')) none
        none true true true = Except.error 1 := by
  refine ⟨?_, ?_, ?_⟩
  · exact validate_command_length_boundary.1 (List.replicate 500 'a')
      (by decide) (by decide)
  · exact validate_command_length_boundary.2.1 (List.replicate 501 'a') (by decide)
  · exact validate_command_length_boundary.2.2 ("http://h/a.zip".toList)
      (List.replicate 501 'a') none none true true true (by decide) (by decide)

/-- C9: a code_url taking the GitHub-tree arm undergoes no SHA-256
verification: whatever checksum the caller supplied and however the
oracles resolve, `sha256sum` is never invoked for it; on the arm's
success path CODE_CHECKSUM_SHA256 is cleared to the empty string; and
whenever the checksum block does run `sha256sum`, the URL was
classified into the zip, tgz or default arm (the ones that produce a
downloaded bundle file). -/
theorem github_tree_skips_checksum :
    ∀ (url : Str) (c0 : Option Str) (dlOk foundFolder mvOk : Bool),
      (selectBranch url = CodeUrlBranch.githubTree →
        shaCheckApplied (runCase url c0 dlOk foundFolder mvOk) = false ∧
          ((runCase url c0 dlOk foundFolder mvOk).exited = false →
            (runCase url c0 dlOk foundFolder mvOk).checksum = some [])) ∧
        (shaCheckApplied (runCase url c0 dlOk foundFolder mvOk) = true →
          selectBranch url = CodeUrlBranch.zip ∨
            selectBranch url = CodeUrlBranch.tgz ∨
            selectBranch url = CodeUrlBranch.fallback) := by
  intro url c0 dlOk foundFolder mvOk
  constructor
  · intro hb
    unfold runCase
    rw [hb]
    cases hre : ghRegexMatch url <;> cases dlOk <;> cases foundFolder <;>
      cases mvOk <;> simp [shaCheckApplied]
  · intro hsha
    cases hb : selectBranch url
    case githubTree =>
      exfalso
      unfold runCase at hsha
      rw [hb] at hsha
      revert hsha
      cases hre : ghRegexMatch url <;> cases dlOk <;> cases foundFolder <;>
        cases mvOk <;> simp [shaCheckApplied]
    case git =>
      exfalso
      unfold runCase at hsha
      rw [hb] at hsha
      revert hsha
      cases dlOk <;> simp [shaCheckApplied]
    case zip => exact Or.inl rfl
    case tgz => exact Or.inr (Or.inl rfl)
    case fallback => exact Or.inr (Or.inr rfl)

/-- C9 witness: for a concrete GitHub tree URL with a caller-supplied
checksum and all steps succeeding, no sha256 check runs and the
checksum variable ends up cleared. -/
theorem github_tree_skips_checksum_witness :
    shaCheckApplied (runCase ("https://github.com/x/y/tree/main/app".toList)
        (some ("deadbeef".toList)) true true true) = false ∧
      (runCase ("https://github.com/x/y/tree/main/app".toList)
        (some ("deadbeef".toList)) true true true).checksum = some [] := by
  constructor
  · exact ((github_tree_skips_checksum ("https://github.com/x/y/tree/main/app".toList)
      (some ("deadbeef".toList)) true true true).1 (by decide)).1
  · exact ((github_tree_skips_checksum ("https://github.com/x/y/tree/main/app".toList)
      (some ("deadbeef".toList)) true true true).1 (by decide)).2 (by decide)

end Cliscale
